import Mathlib

/-!
Verification of the single-image inference path of `app.py` (Brain Tumor MRI
classifier).  The computational core is `real_prediction`, which decodes the
uploaded bytes with PIL, converts to RGB, resizes to 300×300, applies the
EfficientNet `preprocess_input` transform, runs the loaded keras model once,
and packages the output vector into a result dictionary.  External library
behaviour (PIL decoding and resampling, the pixelwise preprocessing transform,
and the loaded model's forward pass) is kept opaque: it is bundled into
`Lib`/`Model` parameters, and all theorems quantify over them.  Pixel values
and probabilities are modelled as rationals.
-/

namespace BrainTumor

/-- An RGB raster image: a width, a height and a 3-channel pixel map.  This is
the result of `PIL.Image.open(...).convert("RGB")` in `app.py`. -/
structure RGBImage where
  width : Nat
  height : Nat
  px : Nat → Nat → Nat × Nat × Nat

/-- A preprocessed floating-point image, the `np.array` of an `RGBImage` after
`preprocess_input`: same spatial dimensions, 3 rational channel values per
pixel. -/
structure PreImage where
  width : Nat
  height : Nat
  px : Nat → Nat → ℚ × ℚ × ℚ

/-- The external imaging/preprocessing library surface that `real_prediction`
calls: `decode` is `PIL.Image.open(io.BytesIO(...)).convert("RGB")` (it yields
`none` exactly on byte buffers that are not a valid raster image, where PIL
raises); `resample` is the resampling kernel used by `PIL.Image.resize`, giving
the pixel of the resized image at each coordinate of the requested target
geometry; `preprocessPixel` is the pixelwise transform applied by
`tensorflow.keras.applications.efficientnet.preprocess_input`. -/
structure Lib where
  decode : List Nat → Option RGBImage
  resample : RGBImage → Nat → Nat → Nat → Nat → Nat × Nat × Nat
  preprocessPixel : Nat × Nat × Nat → ℚ × ℚ × ℚ

/-- `image.resize((w, h))`: the output image has exactly the requested
dimensions, with pixel content produced by the library's resampling kernel
from the input image. -/
def resizeImage (L : Lib) (img : RGBImage) (w h : Nat) : RGBImage :=
  { width := w, height := h, px := L.resample img w h }

/-- `preprocess_input(np.array(image))`: the EfficientNet input transform, a
fixed pixelwise map; spatial dimensions are unchanged. -/
def preprocess_input (L : Lib) (img : RGBImage) : PreImage :=
  { width := img.width, height := img.height,
    px := fun x y => L.preprocessPixel (img.px x y) }

/-- The loaded keras model, `tf.keras.models.load_model("tumor_model.keras")`.
`forward` is `model.predict(np.expand_dims(arr, axis=0), verbose=0)[0]`: the
forward pass on a batch holding the single preprocessed image, taking row 0 of
the batched output.  The classifier head of the tumor model has one output per
class, i.e. four outputs. -/
structure Model where
  forward : PreImage → List ℚ
  forward_len : ∀ a, (forward a).length = 4

/-- `CLASS_NAMES = ["glioma", "meningioma", "notumor", "pituitary"]`
(`app.py`, line 82). -/
def CLASS_NAMES : List String := ["glioma", "meningioma", "notumor", "pituitary"]

/-- The failure of `real_prediction` on bytes that PIL cannot decode
(`PIL.UnidentifiedImageError` propagating out of `Image.open`). -/
inductive PredError where
  | decodeError
deriving DecidableEq, Repr

/-- The dictionary returned by `real_prediction`: keys `class_name`,
`confidence` and `probabilities` (an insertion-ordered association of class
name to percentage). -/
structure PredictionResult where
  class_name : String
  confidence : ℚ
  probabilities : List (String × ℚ)
deriving DecidableEq, Repr

/-- `round(x, 2)`: round to the nearest multiple of 1/100.  (Python rounds
half-to-even on the underlying binary float; over rationals we take the
standard round-to-nearest, which agrees except exactly at half-cent ties and
satisfies the same error bound of 1/200.) -/
def round2 (q : ℚ) : ℚ := ((round (100 * q) : ℤ) : ℚ) / 100

/-- The maximum entry of a list of rationals (0 for the empty list, which
never arises: `np.max`-like helper used to specify `np.argmax`). -/
def maxVal : List ℚ → ℚ
  | [] => 0
  | [x] => x
  | x :: y :: ys => max x (maxVal (y :: ys))

/-- `np.argmax`: the index of the first occurrence of the maximum entry
(NumPy documents that in case of ties the first occurrence is returned). -/
def npArgmax : List ℚ → Nat
  | [] => 0
  | [_] => 0
  | x :: y :: ys => if maxVal (y :: ys) ≤ x then 0 else npArgmax (y :: ys) + 1

/-- `i` is the position of the first occurrence of the maximum of `l`. -/
def isFirstArgmax (l : List ℚ) (i : Nat) : Prop :=
  i < l.length ∧ (∀ j, j < l.length → l.getD j 0 ≤ l.getD i 0) ∧
    (∀ j, j < i → l.getD j 0 < l.getD i 0)

/-- The model output vector `preds` computed by `real_prediction` for a
decoded image: resize to 300×300, preprocess, forward pass. -/
def predsOf (L : Lib) (M : Model) (img : RGBImage) : List ℚ :=
  M.forward (preprocess_input L (resizeImage L img 300 300))

/-- `probs = {CLASS_NAMES[i]: round(float(preds[i] * 100), 2) for i in
range(len(CLASS_NAMES))}`: the association, in the fixed class order, of each
class name to its percentage rounded to two decimals. -/
def probsOf (preds : List ℚ) : List (String × ℚ) :=
  (List.range CLASS_NAMES.length).map
    (fun i => (CLASS_NAMES.getD i "", round2 (100 * preds.getD i 0)))

/-- `real_prediction(image_bytes)` (`app.py`, lines 288–310): decode the bytes
(`DecodeError` when PIL cannot), resize to 300×300, preprocess, run the model
once, then build the result: `top_class = CLASS_NAMES[np.argmax(preds)]`,
`confidence = probs[top_class]`. -/
def real_prediction (L : Lib) (M : Model) (image_bytes : List Nat) :
    Except PredError PredictionResult :=
  match L.decode image_bytes with
  | none => Except.error PredError.decodeError
  | some image =>
    let preds := predsOf L M image
    let probs := probsOf preds
    let top_class := CLASS_NAMES.getD (npArgmax preds) ""
    let confidence := (probs.lookup top_class).getD 0
    Except.ok { class_name := top_class, confidence := confidence,
                probabilities := probs }

/-- The key ordering used by `render_results` (`app.py`, line 617):
`sorted(probs.items(), key=lambda x: x[1], reverse=True)` orders entries by
descending value. -/
def descBy : (String × ℚ) → (String × ℚ) → Prop := fun a b => b.2 ≤ a.2

instance : DecidableRel descBy := fun a b => inferInstanceAs (Decidable (b.2 ≤ a.2))

instance : IsTotal (String × ℚ) descBy := ⟨fun a b => le_total b.2 a.2⟩

instance : IsTrans (String × ℚ) descBy := ⟨fun _ _ _ h1 h2 => le_trans h2 h1⟩

/-- `sorted_probs = sorted(probs.items(), key=lambda x: x[1], reverse=True)`
(`app.py`, line 617, inside `render_results`): a stable sort of the
probability entries by descending value, modelled by stable insertion sort. -/
def sorted_probs (probs : List (String × ℚ)) : List (String × ℚ) :=
  List.insertionSort descBy probs

/-- The process-wide state relevant to model loading: the `@st.cache_resource`
cache of `load_model`, and a count of how many times the model file was
actually loaded from disk. -/
structure ProcState where
  cached_model : Option Model
  load_count : Nat

/-- The state at process start: nothing cached, no load performed. -/
def initState : ProcState := { cached_model := none, load_count := 0 }

/-- `load_model()` under `@st.cache_resource` (`app.py`, lines 282–286):
return the cached model when present; otherwise load it
(`tf.keras.models.load_model`, modelled by `loadFile`), cache it, and record
the load. -/
def load_model (loadFile : Unit → Model) (s : ProcState) : Model × ProcState :=
  match s.cached_model with
  | some m => (m, s)
  | none =>
    let m := loadFile ()
    (m, { cached_model := some m, load_count := s.load_count + 1 })

/-- One streamlit script run serving one uploaded file: the module-level
`model = load_model()` executes, then `real_prediction` is called on the
request bytes.  `real_prediction` itself touches no process state. -/
def scriptRun (loadFile : Unit → Model) (L : Lib) (s : ProcState)
    (req : List Nat) : (Except PredError PredictionResult) × ProcState :=
  let p := load_model loadFile s
  (real_prediction L p.1 req, p.2)

/-- A sequence of script runs, threading the process state. -/
def runRequests (loadFile : Unit → Model) (L : Lib) :
    ProcState → List (List Nat) → ProcState
  | s, [] => s
  | s, r :: rs => runRequests loadFile L (scriptRun loadFile L s r).2 rs

/-- A 1×1 black test image, used to instantiate the theorems. -/
def px1 : RGBImage := { width := 1, height := 1, px := fun _ _ => (0, 0, 0) }

/-- A concrete instantiation of the library surface: decoding fails exactly on
the empty buffer and otherwise yields the 1×1 test image, resampling reads
pixel (0,0), preprocessing casts the channels to ℚ. -/
def cLib : Lib :=
  { decode := fun bs => if bs = [] then none else some px1,
    resample := fun img _ _ _ _ => img.px 0 0,
    preprocessPixel := fun p => ((p.1 : ℚ), (p.2.1 : ℚ), (p.2.2 : ℚ)) }

/-- A test model whose output is the one-hot distribution `[1, 0, 0, 0]`. -/
def modelA : Model := ⟨fun _ => [1, 0, 0, 0], fun _ => rfl⟩

/-- A test model whose output is the ascending distribution
`[0.1, 0.2, 0.3, 0.4]`. -/
def modelB : Model := ⟨fun _ => [1/10, 2/10, 3/10, 4/10], fun _ => rfl⟩

/-- The result of `real_prediction` under `cLib`/`modelA`. -/
def rA : PredictionResult :=
  { class_name := "glioma", confidence := 100,
    probabilities :=
      [("glioma", 100), ("meningioma", 0), ("notumor", 0), ("pituitary", 0)] }

/-- The result of `real_prediction` under `cLib`/`modelB`. -/
def rB : PredictionResult :=
  { class_name := "pituitary", confidence := 40,
    probabilities :=
      [("glioma", 10), ("meningioma", 20), ("notumor", 30), ("pituitary", 40)] }

/-- `np.argmax` stays within the bounds of a nonempty vector. -/
theorem npArgmax_lt_length : ∀ l : List ℚ, l ≠ [] → npArgmax l < l.length
  | [_], _ => by simp [npArgmax]
  | x :: y :: ys, _ => by
    by_cases h : maxVal (y :: ys) ≤ x
    · simp [npArgmax, h]
    · have ih := npArgmax_lt_length (y :: ys) (by simp)
      simp only [npArgmax, if_neg h, List.length_cons]
      simp only [List.length_cons] at ih
      omega

/-- The entry at `np.argmax` is the maximum entry. -/
theorem getD_npArgmax : ∀ l : List ℚ, l ≠ [] → l.getD (npArgmax l) 0 = maxVal l
  | [_], _ => by simp [npArgmax, maxVal]
  | x :: y :: ys, _ => by
    by_cases h : maxVal (y :: ys) ≤ x
    · simp [npArgmax, maxVal, h, max_eq_left h]
    · have ih := getD_npArgmax (y :: ys) (by simp)
      push_neg at h
      have h1 : npArgmax (x :: y :: ys) = npArgmax (y :: ys) + 1 := by
        simp [npArgmax, not_le.mpr h]
      rw [h1, List.getD_cons_succ, ih,
        show maxVal (x :: y :: ys) = max x (maxVal (y :: ys)) from rfl,
        max_eq_right h.le]

/-- Every entry is at most the maximum entry. -/
theorem getD_le_maxVal :
    ∀ (l : List ℚ) (j : Nat), j < l.length → l.getD j 0 ≤ maxVal l
  | [x], 0, _ => by simp [maxVal]
  | [_], _ + 1, h => by simp at h
  | x :: y :: ys, 0, _ => by
    show x ≤ maxVal (x :: y :: ys)
    exact le_max_left x (maxVal (y :: ys))
  | x :: y :: ys, j + 1, h => by
    have ih := getD_le_maxVal (y :: ys) j (by simpa using h)
    show (y :: ys).getD j 0 ≤ maxVal (x :: y :: ys)
    exact le_trans ih (le_max_right x (maxVal (y :: ys)))

/-- Entries strictly before `np.argmax` are strictly below the maximum:
`np.argmax` picks the first occurrence. -/
theorem getD_lt_of_lt_npArgmax :
    ∀ (l : List ℚ) (j : Nat), j < npArgmax l → l.getD j 0 < maxVal l
  | [_], j, h => by simp [npArgmax] at h
  | x :: y :: ys, j, h => by
    by_cases hx : maxVal (y :: ys) ≤ x
    · simp [npArgmax, hx] at h
    · push_neg at hx
      simp only [npArgmax, if_neg (not_le.mpr hx)] at h
      match j with
      | 0 =>
        show x < maxVal (x :: y :: ys)
        rw [show maxVal (x :: y :: ys) = max x (maxVal (y :: ys)) from rfl,
          max_eq_right hx.le]
        exact hx
      | j + 1 =>
        have ih := getD_lt_of_lt_npArgmax (y :: ys) j (by omega)
        show (y :: ys).getD j 0 < maxVal (x :: y :: ys)
        rw [show maxVal (x :: y :: ys) = max x (maxVal (y :: ys)) from rfl,
          max_eq_right hx.le]
        exact ih

/-- Rounding to two decimals preserves non-negativity. -/
theorem round2_nonneg {q : ℚ} (h : 0 ≤ q) : 0 ≤ round2 q := by
  unfold round2
  have h1 : (0 : ℤ) ≤ round (100 * q) := by
    rw [round_eq]
    apply Int.le_floor.mpr
    push_cast
    linarith
  have h2 : (0 : ℚ) ≤ ((round (100 * q) : ℤ) : ℚ) := by exact_mod_cast h1
  linarith

/-- Rounding to two decimals moves a value by at most 1/200. -/
theorem abs_round2_sub (q : ℚ) : |round2 q - q| ≤ 1 / 200 := by
  have h : |100 * q - ((round (100 * q) : ℤ) : ℚ)| ≤ 1 / 2 := abs_sub_round (100 * q)
  rw [abs_sub_comm] at h
  unfold round2
  rw [show ((round (100 * q) : ℤ) : ℚ) / 100 - q
      = (((round (100 * q) : ℤ) : ℚ) - 100 * q) / 100 by ring,
    abs_div, show |(100 : ℚ)| = 100 by norm_num]
  linarith

/-- Unfolding `probsOf`: the four entries in class order. -/
theorem probsOf_eq (preds : List ℚ) :
    probsOf preds =
      [("glioma", round2 (100 * preds.getD 0 0)),
       ("meningioma", round2 (100 * preds.getD 1 0)),
       ("notumor", round2 (100 * preds.getD 2 0)),
       ("pituitary", round2 (100 * preds.getD 3 0))] := rfl

/-- The keys of the probabilities association are exactly `CLASS_NAMES`. -/
theorem probsOf_keys (preds : List ℚ) :
    (probsOf preds).map Prod.fst = CLASS_NAMES := rfl

/-- The probabilities association always has exactly four entries. -/
theorem probsOf_length (preds : List ℚ) : (probsOf preds).length = 4 := rfl

/-- Looking up the `i`-th class name in the probabilities association yields
the rounded percentage of the `i`-th model output. -/
theorem lookup_probsOf (preds : List ℚ) (i : Nat) (hi : i < 4) :
    (probsOf preds).lookup (CLASS_NAMES.getD i "") =
      some (round2 (100 * preds.getD i 0)) := by
  interval_cases i <;> rfl

/-- On successfully decoded bytes, `real_prediction` returns the packaged
result built from the model output vector. -/
theorem real_prediction_ok (L : Lib) (M : Model) (bytes : List Nat)
    (img : RGBImage) (hdec : L.decode bytes = some img) :
    real_prediction L M bytes = Except.ok
      { class_name := CLASS_NAMES.getD (npArgmax (predsOf L M img)) "",
        confidence := ((probsOf (predsOf L M img)).lookup
          (CLASS_NAMES.getD (npArgmax (predsOf L M img)) "")).getD 0,
        probabilities := probsOf (predsOf L M img) } := by
  unfold real_prediction
  rw [hdec]

/-- A list of length four is a four-element list. -/
theorem eq_four_of_length (l : List ℚ) (h : l.length = 4) :
    ∃ a b c d, l = [a, b, c, d] := by
  match l, h with
  | [a, b, c, d], _ => exact ⟨a, b, c, d, rfl⟩
  | [], h => simp at h
  | [a], h => simp at h
  | [a, b], h => simp at h
  | [a, b, c], h => simp at h
  | a :: b :: c :: d :: e :: t, h => simp at h

/-- A script run on a state whose model cache is filled leaves the process
state untouched. -/
theorem scriptRun_state_of_cached (f : Unit → Model) (L : Lib) (s : ProcState)
    (m : Model) (hm : s.cached_model = some m) (r : List Nat) :
    (scriptRun f L s r).2 = s := by
  simp [scriptRun, load_model, hm]

/-- Any number of script runs on a state whose model cache is filled leaves
the process state untouched. -/
theorem runRequests_cached (f : Unit → Model) (L : Lib) (m : Model) :
    ∀ (rs : List (List Nat)) (s : ProcState), s.cached_model = some m →
      runRequests f L s rs = s
  | [], _, _ => rfl
  | r :: rs, s, hm => by
    rw [runRequests, scriptRun_state_of_cached f L s m hm r]
    exact runRequests_cached f L m rs s hm

/-- Evaluation of `real_prediction` on the test input under `modelA`. -/
theorem real_prediction_A : real_prediction cLib modelA [0] = Except.ok rA := by
  rw [real_prediction_ok cLib modelA [0] px1 rfl,
    show predsOf cLib modelA px1 = [1, 0, 0, 0] from rfl, probsOf_eq]
  norm_num [npArgmax, maxVal, max_def, round2, CLASS_NAMES, List.lookup,
    List.getD_cons_zero, List.getD_cons_succ, rA]

/-- Evaluation of `real_prediction` on the test input under `modelB`. -/
theorem real_prediction_B : real_prediction cLib modelB [0] = Except.ok rB := by
  rw [real_prediction_ok cLib modelB [0] px1 rfl,
    show predsOf cLib modelB px1 = [1/10, 2/10, 3/10, 4/10] from rfl, probsOf_eq]
  norm_num [npArgmax, maxVal, max_def, round2, CLASS_NAMES, List.lookup,
    List.getD_cons_zero, List.getD_cons_succ, rB]
  decide

/-- C1: for every input byte string that decodes to a valid image, the
`class_name` of the result of `real_prediction` is the entry of the fixed
label list `CLASS_NAMES = [glioma, meningioma, notumor, pituitary]` at the
argmax index of the model's output vector, where the argmax index is the
position of the first occurrence of the maximum (ties broken by first
occurrence in the fixed ordering). -/
theorem C1_topLabel_argmax (L : Lib) (M : Model) (bytes : List Nat)
    (img : RGBImage) (r : PredictionResult)
    (hdec : L.decode bytes = some img)
    (hr : real_prediction L M bytes = Except.ok r) :
    r.class_name = CLASS_NAMES.getD (npArgmax (predsOf L M img)) "" ∧
      isFirstArgmax (predsOf L M img) (npArgmax (predsOf L M img)) := by
  rw [real_prediction_ok L M bytes img hdec] at hr
  have hre := Except.ok.inj hr
  subst hre
  have hlen : (predsOf L M img).length = 4 := M.forward_len _
  have hne : predsOf L M img ≠ [] := fun hnil => by rw [hnil] at hlen; simp at hlen
  refine ⟨rfl, npArgmax_lt_length _ hne, ?_, ?_⟩
  · intro j hj
    rw [getD_npArgmax _ hne]
    exact getD_le_maxVal _ j hj
  · intro j hj
    rw [getD_npArgmax _ hne]
    exact getD_lt_of_lt_npArgmax _ j hj

/-- Witness for `C1_topLabel_argmax` at a concrete library, model and input. -/
theorem C1_topLabel_argmax_w :
    cLib.decode [0] = some px1 ∧
    real_prediction cLib modelB [0] = Except.ok rB ∧
    (rB.class_name = CLASS_NAMES.getD (npArgmax (predsOf cLib modelB px1)) "" ∧
      isFirstArgmax (predsOf cLib modelB px1) (npArgmax (predsOf cLib modelB px1))) :=
  ⟨rfl, real_prediction_B,
    C1_topLabel_argmax cLib modelB [0] px1 rB rfl real_prediction_B⟩

/-- C2 counterexample: at a concrete decodable input and a model output that
is a genuine softmax distribution ([1, 0, 0, 0]: non-negative, summing to 1),
the entries of the returned probabilities mapping sum to 100, which is not
within 1e-4 of 1.0 — the mapping stores percentages, not unit-sum
probabilities. -/
theorem C2_counterexample :
    cLib.decode [0] = some px1 ∧
    (∀ x ∈ predsOf cLib modelA px1, 0 ≤ x) ∧
    (predsOf cLib modelA px1).sum = 1 ∧
    real_prediction cLib modelA [0] = Except.ok rA ∧
    ¬ |(rA.probabilities.map Prod.snd).sum - 1| ≤ 1 / 10000 := by
  refine ⟨rfl, ?_, ?_, real_prediction_A, ?_⟩
  · intro x hx
    rw [show predsOf cLib modelA px1 = [1, 0, 0, 0] from rfl] at hx
    simp only [List.mem_cons, List.not_mem_nil, or_false] at hx
    rcases hx with rfl | rfl | rfl | rfl <;> norm_num
  · rw [show predsOf cLib modelA px1 = [1, 0, 0, 0] from rfl]
    norm_num
  · norm_num [rA]

/-- C2 (amended): for every valid image input, if the model's output is a
softmax-normalized distribution (entries non-negative and summing to 1), the
probabilities mapping returned by `real_prediction` has all entries
non-negative, and — since the entries are percentages rounded to two
decimals — they sum to 100 within tolerance 1/50 = 0.02, not to 1. -/
theorem C2_probabilities_sum_amended (L : Lib) (M : Model) (bytes : List Nat)
    (img : RGBImage) (r : PredictionResult)
    (hdec : L.decode bytes = some img)
    (hr : real_prediction L M bytes = Except.ok r)
    (hnn : ∀ x ∈ predsOf L M img, 0 ≤ x)
    (hsum : (predsOf L M img).sum = 1) :
    (∀ p ∈ r.probabilities, 0 ≤ p.2) ∧
      |(r.probabilities.map Prod.snd).sum - 100| ≤ 1 / 50 := by
  rw [real_prediction_ok L M bytes img hdec] at hr
  have hre := Except.ok.inj hr
  subst hre
  have hlen : (predsOf L M img).length = 4 := M.forward_len _
  obtain ⟨a, b, c, d, habcd⟩ := eq_four_of_length _ hlen
  rw [habcd] at hnn hsum
  have ha : (0:ℚ) ≤ a := hnn a (by simp)
  have hb : (0:ℚ) ≤ b := hnn b (by simp)
  have hc : (0:ℚ) ≤ c := hnn c (by simp)
  have hd : (0:ℚ) ≤ d := hnn d (by simp)
  have hsum4 : a + b + c + d = 1 := by
    simp only [List.sum_cons, List.sum_nil] at hsum
    linarith
  show (∀ p ∈ probsOf (predsOf L M img), 0 ≤ p.2) ∧
    |((probsOf (predsOf L M img)).map Prod.snd).sum - 100| ≤ 1 / 50
  rw [habcd, probsOf_eq]
  simp only [List.getD_cons_zero, List.getD_cons_succ]
  constructor
  · intro p hp
    simp only [List.mem_cons, List.not_mem_nil, or_false] at hp
    rcases hp with h | h | h | h
    · rw [h]; exact round2_nonneg (mul_nonneg (by norm_num) ha)
    · rw [h]; exact round2_nonneg (mul_nonneg (by norm_num) hb)
    · rw [h]; exact round2_nonneg (mul_nonneg (by norm_num) hc)
    · rw [h]; exact round2_nonneg (mul_nonneg (by norm_num) hd)
  · have e1 := abs_le.mp (abs_round2_sub (100 * a))
    have e2 := abs_le.mp (abs_round2_sub (100 * b))
    have e3 := abs_le.mp (abs_round2_sub (100 * c))
    have e4 := abs_le.mp (abs_round2_sub (100 * d))
    simp only [List.map_cons, List.map_nil, List.sum_cons, List.sum_nil]
    rw [abs_le]
    constructor <;>
      linarith [e1.1, e1.2, e2.1, e2.2, e3.1, e3.2, e4.1, e4.2, hsum4]

/-- Witness for `C2_probabilities_sum_amended` at a concrete library, model
and input. -/
theorem C2_probabilities_sum_amended_w :
    cLib.decode [0] = some px1 ∧
    real_prediction cLib modelA [0] = Except.ok rA ∧
    (∀ x ∈ predsOf cLib modelA px1, 0 ≤ x) ∧
    (predsOf cLib modelA px1).sum = 1 ∧
    ((∀ p ∈ rA.probabilities, 0 ≤ p.2) ∧
      |(rA.probabilities.map Prod.snd).sum - 100| ≤ 1 / 50) := by
  refine ⟨rfl, real_prediction_A, ?_, ?_, ?_⟩
  · intro x hx
    rw [show predsOf cLib modelA px1 = [1, 0, 0, 0] from rfl] at hx
    simp only [List.mem_cons, List.not_mem_nil, or_false] at hx
    rcases hx with rfl | rfl | rfl | rfl <;> norm_num
  · rw [show predsOf cLib modelA px1 = [1, 0, 0, 0] from rfl]
    norm_num
  · refine C2_probabilities_sum_amended cLib modelA [0] px1 rA rfl
      real_prediction_A ?_ ?_
    · intro x hx
      rw [show predsOf cLib modelA px1 = [1, 0, 0, 0] from rfl] at hx
      simp only [List.mem_cons, List.not_mem_nil, or_false] at hx
      rcases hx with rfl | rfl | rfl | rfl <;> norm_num
    · rw [show predsOf cLib modelA px1 = [1, 0, 0, 0] from rfl]
      norm_num

/-- C3: whenever the byte buffer does not decode to a valid raster image
(`decode` yields `none`, as PIL does on corrupted or empty buffers),
`real_prediction` fails with the decode error — never a crash and never a
silent default result. -/
theorem C3_decode_error (L : Lib) (M : Model) (bytes : List Nat)
    (hdec : L.decode bytes = none) :
    real_prediction L M bytes = Except.error PredError.decodeError := by
  unfold real_prediction
  rw [hdec]

/-- Witness for `C3_decode_error` on the empty buffer. -/
theorem C3_decode_error_w :
    cLib.decode [] = none ∧
    real_prediction cLib modelA [] = Except.error PredError.decodeError :=
  ⟨rfl, C3_decode_error cLib modelA [] rfl⟩

/-- C4: `real_prediction` is deterministic — two calls with identical input
bytes and the same loaded model and library produce identical results. -/
theorem C4_deterministic (L : Lib) (M : Model) (b1 b2 : List Nat)
    (h : b1 = b2) : real_prediction L M b1 = real_prediction L M b2 := by
  rw [h]

/-- Witness for `C4_deterministic` at a concrete input. -/
theorem C4_deterministic_w :
    ([0] : List Nat) = [0] ∧
    real_prediction cLib modelA [0] = real_prediction cLib modelA [0] :=
  ⟨rfl, C4_deterministic cLib modelA [0] [0] rfl⟩

/-- C5: for every decodable input image of any resolution, the image fed to
the model is the 3-channel image resized to exactly 300×300 (the `RGBImage`
type is 3-channel by construction, matching `.convert("RGB")`), and the
returned probabilities mapping always has length exactly 4 with keys equal to
the fixed label list. -/
theorem C5_resize_fixed (L : Lib) (M : Model) (bytes : List Nat)
    (img : RGBImage) (r : PredictionResult)
    (hdec : L.decode bytes = some img)
    (hr : real_prediction L M bytes = Except.ok r) :
    (resizeImage L img 300 300).width = 300 ∧
    (resizeImage L img 300 300).height = 300 ∧
    (preprocess_input L (resizeImage L img 300 300)).width = 300 ∧
    (preprocess_input L (resizeImage L img 300 300)).height = 300 ∧
    r.probabilities.length = 4 ∧
    r.probabilities.map Prod.fst = CLASS_NAMES := by
  rw [real_prediction_ok L M bytes img hdec] at hr
  have hre := Except.ok.inj hr
  subst hre
  exact ⟨rfl, rfl, rfl, rfl, probsOf_length _, probsOf_keys _⟩

/-- Witness for `C5_resize_fixed` at a concrete library, model and input. -/
theorem C5_resize_fixed_w :
    cLib.decode [0] = some px1 ∧
    real_prediction cLib modelA [0] = Except.ok rA ∧
    ((resizeImage cLib px1 300 300).width = 300 ∧
     (resizeImage cLib px1 300 300).height = 300 ∧
     (preprocess_input cLib (resizeImage cLib px1 300 300)).width = 300 ∧
     (preprocess_input cLib (resizeImage cLib px1 300 300)).height = 300 ∧
     rA.probabilities.length = 4 ∧
     rA.probabilities.map Prod.fst = CLASS_NAMES) :=
  ⟨rfl, real_prediction_A,
    C5_resize_fixed cLib modelA [0] px1 rA rfl real_prediction_A⟩

/-- C6 counterexample: at a concrete decodable input with ascending model
output [0.1, 0.2, 0.3, 0.4], the probabilities carried by the result of
`real_prediction` are in the fixed label order, which is not sorted descending
by probability — the result does not contain a descending-sorted vector. -/
theorem C6_counterexample :
    real_prediction cLib modelB [0] = Except.ok rB ∧
    ¬ List.Sorted descBy rB.probabilities := by
  refine ⟨real_prediction_B, ?_⟩
  simp [rB, List.Sorted, List.pairwise_cons, descBy]
  norm_num

/-- C6 (amended): the result of `real_prediction` contains the full
probability vector keyed in the fixed label order `CLASS_NAMES`; the
descending ordering is computed from it by the rendering layer
(`sorted_probs` in `render_results`), which produces a permutation of the
returned vector sorted descending by probability. -/
theorem C6_sorted_for_display (L : Lib) (M : Model) (bytes : List Nat)
    (img : RGBImage) (r : PredictionResult)
    (hdec : L.decode bytes = some img)
    (hr : real_prediction L M bytes = Except.ok r) :
    r.probabilities.map Prod.fst = CLASS_NAMES ∧
    (sorted_probs r.probabilities).Perm r.probabilities ∧
    List.Sorted descBy (sorted_probs r.probabilities) := by
  rw [real_prediction_ok L M bytes img hdec] at hr
  have hre := Except.ok.inj hr
  subst hre
  exact ⟨probsOf_keys _, List.perm_insertionSort descBy _,
    List.sorted_insertionSort descBy _⟩

/-- Witness for `C6_sorted_for_display` at a concrete library, model and
input. -/
theorem C6_sorted_for_display_w :
    cLib.decode [0] = some px1 ∧
    real_prediction cLib modelB [0] = Except.ok rB ∧
    (rB.probabilities.map Prod.fst = CLASS_NAMES ∧
     (sorted_probs rB.probabilities).Perm rB.probabilities ∧
     List.Sorted descBy (sorted_probs rB.probabilities)) :=
  ⟨rfl, real_prediction_B,
    C6_sorted_for_display cLib modelB [0] px1 rB rfl real_prediction_B⟩

/-- C7: the `confidence` field of the result equals the probability of the
top label expressed as a percentage (rounded to two decimals, as all stored
percentages are), and that probability is the maximum entry of the model's
output vector. -/
theorem C7_confidence_top (L : Lib) (M : Model) (bytes : List Nat)
    (img : RGBImage) (r : PredictionResult)
    (hdec : L.decode bytes = some img)
    (hr : real_prediction L M bytes = Except.ok r) :
    r.confidence =
      round2 (100 * (predsOf L M img).getD (npArgmax (predsOf L M img)) 0) ∧
    (predsOf L M img).getD (npArgmax (predsOf L M img)) 0 =
      maxVal (predsOf L M img) := by
  rw [real_prediction_ok L M bytes img hdec] at hr
  have hre := Except.ok.inj hr
  subst hre
  have hlen : (predsOf L M img).length = 4 := M.forward_len _
  have hne : predsOf L M img ≠ [] := fun hnil => by rw [hnil] at hlen; simp at hlen
  have harg := npArgmax_lt_length _ hne
  rw [hlen] at harg
  constructor
  · show ((probsOf (predsOf L M img)).lookup
      (CLASS_NAMES.getD (npArgmax (predsOf L M img)) "")).getD 0 = _
    rw [lookup_probsOf _ _ harg]
    rfl
  · exact getD_npArgmax _ hne

/-- Witness for `C7_confidence_top` at a concrete library, model and input. -/
theorem C7_confidence_top_w :
    cLib.decode [0] = some px1 ∧
    real_prediction cLib modelB [0] = Except.ok rB ∧
    (rB.confidence =
      round2 (100 * (predsOf cLib modelB px1).getD
        (npArgmax (predsOf cLib modelB px1)) 0) ∧
     (predsOf cLib modelB px1).getD (npArgmax (predsOf cLib modelB px1)) 0 =
      maxVal (predsOf cLib modelB px1)) :=
  ⟨rfl, real_prediction_B,
    C7_confidence_top cLib modelB [0] px1 rB rfl real_prediction_B⟩

/-- C8: the model is actually loaded from disk exactly once per process —
the `@st.cache_resource` cache is filled at the first script run and every
later run reuses it — and a request served on a loaded process leaves the
process state completely unchanged (`real_prediction` touches no shared
state). -/
theorem C8_model_loaded_once (f : Unit → Model) (L : Lib)
    (reqs : List (List Nat)) (h : reqs ≠ []) :
    runRequests f L initState reqs =
      { cached_model := some (f ()), load_count := 1 } ∧
    ∀ (s : ProcState) (m : Model) (r : List Nat), s.cached_model = some m →
      (scriptRun f L s r).2 = s := by
  constructor
  · match reqs, h with
    | r :: rs, _ =>
      have h1 : (scriptRun f L initState r).2 =
          { cached_model := some (f ()), load_count := 1 } := rfl
      rw [runRequests, h1]
      exact runRequests_cached f L (f ()) rs _ rfl
  · intro s m r hm
    exact scriptRun_state_of_cached f L s m hm r

/-- Witness for `C8_model_loaded_once` on a concrete one-request trace. -/
theorem C8_model_loaded_once_w :
    ([[0]] : List (List Nat)) ≠ [] ∧
    (runRequests (fun _ => modelA) cLib initState [[0]] =
      { cached_model := some ((fun _ => modelA) ()), load_count := 1 } ∧
     ∀ (s : ProcState) (m : Model) (r : List Nat), s.cached_model = some m →
      (scriptRun (fun _ => modelA) cLib s r).2 = s) :=
  ⟨by simp, C8_model_loaded_once (fun _ => modelA) cLib [[0]] (by simp)⟩

/-- C9: on a 1×1 pixel decodable image, `real_prediction` is total and
consistent: it resizes to 300×300 and returns a valid result — a
probabilities mapping with exactly 4 entries and a `class_name` drawn from the
fixed label set. -/
theorem C9_one_pixel (L : Lib) (M : Model) (bytes : List Nat)
    (img : RGBImage)
    (hdec : L.decode bytes = some img)
    (hw : img.width = 1) (hh : img.height = 1) :
    ∃ r, real_prediction L M bytes = Except.ok r ∧
      r.probabilities.length = 4 ∧ r.class_name ∈ CLASS_NAMES := by
  refine ⟨_, real_prediction_ok L M bytes img hdec, probsOf_length _, ?_⟩
  have hlen : (predsOf L M img).length = 4 := M.forward_len _
  have hne : predsOf L M img ≠ [] := fun hnil => by rw [hnil] at hlen; simp at hlen
  have harg := npArgmax_lt_length _ hne
  rw [hlen] at harg
  show CLASS_NAMES.getD (npArgmax (predsOf L M img)) "" ∈ CLASS_NAMES
  set i := npArgmax (predsOf L M img) with hi
  interval_cases i <;> decide

/-- Witness for `C9_one_pixel` on the concrete 1×1 test image. -/
theorem C9_one_pixel_w :
    cLib.decode [0] = some px1 ∧ px1.width = 1 ∧ px1.height = 1 ∧
    (∃ r, real_prediction cLib modelA [0] = Except.ok r ∧
      r.probabilities.length = 4 ∧ r.class_name ∈ CLASS_NAMES) :=
  ⟨rfl, rfl, rfl, C9_one_pixel cLib modelA [0] px1 rfl rfl rfl⟩

/-- C10: the result of `real_prediction` is internally consistent — the
probabilities mapping is keyed exactly by the four labels of `CLASS_NAMES` in
the fixed order, `class_name` is one of those keys, and `confidence` is
exactly the value stored in the probabilities mapping under `class_name`. -/
theorem C10_internal_consistency (L : Lib) (M : Model) (bytes : List Nat)
    (img : RGBImage) (r : PredictionResult)
    (hdec : L.decode bytes = some img)
    (hr : real_prediction L M bytes = Except.ok r) :
    r.probabilities.map Prod.fst = CLASS_NAMES ∧
    r.class_name ∈ CLASS_NAMES ∧
    r.probabilities.lookup r.class_name = some r.confidence := by
  rw [real_prediction_ok L M bytes img hdec] at hr
  have hre := Except.ok.inj hr
  subst hre
  have hlen : (predsOf L M img).length = 4 := M.forward_len _
  have hne : predsOf L M img ≠ [] := fun hnil => by rw [hnil] at hlen; simp at hlen
  have harg := npArgmax_lt_length _ hne
  rw [hlen] at harg
  refine ⟨probsOf_keys _, ?_, ?_⟩
  · show CLASS_NAMES.getD (npArgmax (predsOf L M img)) "" ∈ CLASS_NAMES
    set i := npArgmax (predsOf L M img) with hi
    interval_cases i <;> decide
  · show (probsOf (predsOf L M img)).lookup
        (CLASS_NAMES.getD (npArgmax (predsOf L M img)) "") =
      some (((probsOf (predsOf L M img)).lookup
        (CLASS_NAMES.getD (npArgmax (predsOf L M img)) "")).getD 0)
    rw [lookup_probsOf _ _ harg]
    rfl

/-- Witness for `C10_internal_consistency` at a concrete library, model and
input. -/
theorem C10_internal_consistency_w :
    cLib.decode [0] = some px1 ∧
    real_prediction cLib modelB [0] = Except.ok rB ∧
    (rB.probabilities.map Prod.fst = CLASS_NAMES ∧
     rB.class_name ∈ CLASS_NAMES ∧
     rB.probabilities.lookup rB.class_name = some rB.confidence) :=
  ⟨rfl, real_prediction_B,
    C10_internal_consistency cLib modelB [0] px1 rB rfl real_prediction_B⟩

end BrainTumor
